import Mathlib

set_option maxHeartbeats 1000000

/-!
Shallow embedding of the polymc-meta metadata model
(source file: src/meta/model/__init__.py).

Strings from the Python source are modelled as lists of characters
(`Str`); Python `str.split(sep)` for a one-character separator is
`splitOnChar`; Python truthiness of an optional list or string field
(`if self.x:`) is modelled as `(x.getD []) ≠ []`; a raised exception
(IndexError from a subscript, or an AssertionError from a pydantic
validator) is modelled as `Option.none`.
-/

/-- Character-list representation of a Python string. -/
abbrev Str : Type := List Char

/-- Convert a Lean string literal to the character-list representation. -/
def str (s : String) : Str := s.toList

/-- Python `s.split(sep)` for a single-character separator `sep`:
splits at every occurrence, keeping empty pieces, so the result always
has one more element than the number of separator occurrences. -/
def splitOnChar (c : Char) : Str → List Str
  | [] => [[]]
  | x :: xs =>
    if x = c then [] :: splitOnChar c xs
    else
      match splitOnChar c xs with
      | [] => [[x]]
      | y :: ys => (x :: y) :: ys

/-- The maven coordinate type `GradleSpecifier` of the source:
group, artifact, version, optional classifier, extension
(the extension field is always populated, see `GradleSpecifier.make`). -/
structure GradleSpecifier where
  group : Str
  artifact : Str
  version : Str
  classifier : Option Str
  extension : Str
  deriving DecidableEq, Repr

/-- The constructor `GradleSpecifier.__init__`: an absent extension
defaults to "jar". -/
def GradleSpecifier.make (group artifact version : Str)
    (classifier : Option Str) (extension : Option Str) : GradleSpecifier :=
  ⟨group, artifact, version, classifier, extension.getD (str "jar")⟩

/-- The method `GradleSpecifier.__str__`: `group:artifact:version`,
then `:classifier` when the classifier is truthy (present and
non-empty), then `@extension` when the extension differs from "jar". -/
def GradleSpecifier.toStr (s : GradleSpecifier) : Str :=
  let ext : Str := if s.extension = str "jar" then [] else '@' :: s.extension
  if s.classifier.getD [] ≠ [] then
    s.group ++ ':' :: s.artifact ++ ':' :: s.version ++ ':' :: s.classifier.getD [] ++ ext
  else
    s.group ++ ':' :: s.artifact ++ ':' :: s.version ++ ext

/-- The method `GradleSpecifier.filename`:
`artifact-version-classifier.extension` when the classifier is truthy,
`artifact-version.extension` otherwise. -/
def GradleSpecifier.filename (s : GradleSpecifier) : Str :=
  if s.classifier.getD [] ≠ [] then
    s.artifact ++ '-' :: s.version ++ '-' :: s.classifier.getD [] ++ '.' :: s.extension
  else
    s.artifact ++ '-' :: s.version ++ '.' :: s.extension

/-- The method `GradleSpecifier.base`: the group with each dot replaced
by a slash, then slash-separated artifact and version, ending in a
slash. -/
def GradleSpecifier.base (s : GradleSpecifier) : Str :=
  (s.group.map (fun ch => if ch = '.' then '/' else ch)) ++
    '/' :: s.artifact ++ '/' :: s.version ++ ['/']

/-- The method `GradleSpecifier.path`: `base` followed by `filename`. -/
def GradleSpecifier.path (s : GradleSpecifier) : Str := s.base ++ s.filename

/-- Python `needle == hay[:len(needle)]`: prefix test used to build the
substring test below. -/
def isPrefixOfStr : Str → Str → Bool
  | [], _ => true
  | _ :: _, [] => false
  | a :: as, b :: bs => a = b && isPrefixOfStr as bs

/-- Python `needle in hay`: contiguous-substring containment. -/
def containsSub (needle : Str) : Str → Bool
  | [] => isPrefixOfStr needle []
  | l@(_ :: rest) => isPrefixOfStr needle l || containsSub needle rest

/-- The method `GradleSpecifier.is_archdependent`: true when the group
contains the substring "lwjgl", or the artifact contains the substring
"objc". -/
def GradleSpecifier.is_archdependent (s : GradleSpecifier) : Bool :=
  if containsSub (str "lwjgl") s.group then true
  else if containsSub (str "objc") s.artifact then true
  else false

/-- The classmethod `GradleSpecifier.from_string`: split the input on
every at-sign, split the part before the first at-sign on colons; the
first three colon components are group, artifact and version (an input
with fewer than three components raises, modelled as `none`); the
extension is taken only when the at-split has exactly two parts, the
classifier only when the colon-split has exactly four. -/
def GradleSpecifier.from_string (v : Str) : Option GradleSpecifier :=
  let extSplit := splitOnChar '@' v
  let components := splitOnChar ':' (extSplit.headD [])
  match components with
  | group :: artifact :: version :: _ =>
    let extension : Option Str :=
      if extSplit.length = 2 then some (extSplit.getD 1 []) else none
    let classifier : Option Str :=
      if components.length = 4 then some (components.getD 3 []) else none
    some (GradleSpecifier.make group artifact version classifier extension)
  | _ => none

/-- The method `GradleSpecifier.__eq__` for a specifier operand:
`str(self) == str(other)`. -/
def GradleSpecifier.eqSpec (a b : GradleSpecifier) : Bool := a.toStr == b.toStr

/-- The method `GradleSpecifier.__eq__` for a plain-string operand
`other`: `str(self) == str(other)`, and `str` of a string is itself. -/
def GradleSpecifier.eqStr (a : GradleSpecifier) (other : Str) : Bool := a.toStr == other

/-- Lexicographic less-than on character lists, by code point, as
Python compares strings. -/
def strLt : Str → Str → Bool
  | [], [] => false
  | [], _ :: _ => true
  | _ :: _, [] => false
  | a :: as, b :: bs => if a < b then true else if b < a then false else strLt as bs

/-- The method `GradleSpecifier.__lt__`: `str(self) < str(other)`. -/
def GradleSpecifier.ltSpec (a b : GradleSpecifier) : Bool := strLt a.toStr b.toStr

/-- The method `GradleSpecifier.__gt__`: `str(self) > str(other)`. -/
def GradleSpecifier.gtSpec (a b : GradleSpecifier) : Bool := strLt b.toStr a.toStr

/-- The method `GradleSpecifier.__hash__`: `hash(str(self))`.  The
Python string hash itself is an arbitrary opaque function, modelled as
the parameter `h`. -/
def GradleSpecifier.hashWith (h : Str → Int) (a : GradleSpecifier) : Int := h a.toStr

/-- The allowed operating-system names of the `OSRule.name` pydantic
validator `name_must_be_os`. -/
def osNames : List Str :=
  [str "osx", str "osx-arm64", str "linux", str "linux-arm64", str "windows"]

/-- The model `OSRule`: an operating-system constraint. -/
structure OSRule where
  name : Str
  version : Option Str
  deriving DecidableEq, Repr

/-- Construction of an `OSRule` runs the validator `name_must_be_os`
(`assert v in [...]`); a failed assertion is modelled as `none`. -/
def mkOSRule (name : Str) (version : Option Str) : Option OSRule :=
  if osNames.contains name then some ⟨name, version⟩ else none

/-- The model `MojangRule`: an allow/disallow action with an optional
operating-system constraint. -/
structure MojangRule where
  action : Str
  os : Option OSRule
  deriving DecidableEq, Repr

/-- Construction of a `MojangRule` runs the validator
`action_must_be_allow_disallow` (`assert v in ["allow", "disallow"]`);
a failed assertion is modelled as `none`. -/
def mkMojangRule (action : Str) (os : Option OSRule) : Option MojangRule :=
  if action = str "allow" ∨ action = str "disallow" then some ⟨action, os⟩ else none

/-- The model `MojangArtifact` (with the `MojangArtifactBase` fields):
optional sha1 and size, required url, optional path. -/
structure MojangArtifact where
  sha1 : Option Str
  size : Option Int
  url : Str
  path : Option Str
  deriving DecidableEq, Repr

/-- The model `MojangLibraryDownloads`: an optional main artifact and an
optional classifier-to-artifact map (a Python dict, modelled as an
association list in insertion order). -/
structure MojangLibraryDownloads where
  artifact : Option MojangArtifact
  classifiers : Option (List (Str × MojangArtifact))
  deriving DecidableEq, Repr

/-- The model `MojangLibrary`.  The field `extract` holds the `exclude`
list of `MojangLibraryExtractRules`; `rules` is the optional
`MojangRules` root list (so `some []` is an explicitly present empty
rule list, which is *truthy* in Python because pydantic models define
no `__bool__` or `__len__`); `arch_rules` is the optional
action-to-architecture-names dict, modelled as an association list in
insertion order. -/
structure MojangLibrary where
  extract : Option (List Str)
  name : GradleSpecifier
  downloads : Option MojangLibraryDownloads
  natives : Option (List (Str × Str))
  rules : Option (List MojangRule)
  arch_rules : Option (List (Str × List Str))
  traits : Option (List Str)
  deriving DecidableEq, Repr

/-- Python `"disallow" in arch_rules`: key membership in the dict. -/
def hasDisallow (archRules : List (Str × List Str)) : Bool :=
  archRules.any (fun p => p.1 == str "disallow")

/-- The inner loop of `MojangLibrary.dict`: for one `(action, arches)`
pair, build `MojangRule(action=action, os=OSRule(name=arch,
version=None))` for each arch in list order; a validator failure
(unknown action or arch name) propagates as `none`. -/
def expandArch (action : Str) : List Str → Option (List MojangRule)
  | [] => some []
  | arch :: rest => do
    let os ← mkOSRule arch none
    let r ← mkMojangRule action (some os)
    let rs ← expandArch action rest
    pure (r :: rs)

/-- The outer loop of `MojangLibrary.dict`: iterate the `arch_rules`
pairs in dict insertion order, appending the expansion of each. -/
def expandArchRules : List (Str × List Str) → Option (List MojangRule)
  | [] => some []
  | (action, arches) :: rest => do
    let rs ← expandArch action arches
    let rest2 ← expandArchRules rest
    pure (rs ++ rest2)

/-- The rule-synthesis part of `MojangLibrary.dict`, as the code does
it: when `arch_rules` is falsy (absent or the empty dict) the library
is returned unchanged; otherwise, when the `rules` field is falsy
(absent: `None`, since a present `MojangRules` value is always truthy)
it is replaced by a fresh list holding a blanket
`MojangRule(action="allow", os=None)` exactly when `"disallow"` is an
`arch_rules` key; then every `(action, arch)` pair is appended in
order and `arch_rules` is cleared to `None`. -/
def MojangLibrary.dictResolve (lib : MojangLibrary) : Option MojangLibrary :=
  if (lib.arch_rules.getD []).isEmpty then some lib
  else
    let rules0 : List MojangRule :=
      match lib.rules with
      | some rs => rs
      | none =>
        if hasDisallow (lib.arch_rules.getD []) then [⟨str "allow", none⟩] else []
    (expandArchRules (lib.arch_rules.getD [])).map (fun expanded =>
      { lib with rules := some (rules0 ++ expanded), arch_rules := none })

/-- The rule-synthesis algorithm exactly as the specification words it:
start from the existing explicit rules list (empty list if none); if
that list is empty and `arch_rules` contains the disallow action,
prepend one unconditional allow rule; then append one rule per
`(action, arch)` pair in order.  This definition follows the words of
the specification and is compared against `MojangLibrary.dictResolve`,
which follows the code. -/
def specRuleSynthesis (rules : Option (List MojangRule))
    (archRules : List (Str × List Str)) : Option (List MojangRule) :=
  (expandArchRules archRules).map (fun expanded =>
    let base := rules.getD []
    let base2 :=
      if base.isEmpty && hasDisallow archRules then ⟨str "allow", none⟩ :: base else base
    base2 ++ expanded)

/-- The method `MojangLibrary.add_archdependent_trait`: when the
coordinate is arch-dependent, append the literal trait "ArchDependent"
to the truthy traits list, or start a fresh list when the traits field
is falsy (absent or empty). -/
def MojangLibrary.add_archdependent_trait (lib : MojangLibrary) : MojangLibrary :=
  if lib.name.is_archdependent then
    if (lib.traits.getD []).isEmpty then
      { lib with traits := some [str "ArchDependent"] }
    else
      { lib with traits := some (lib.traits.getD [] ++ [str "ArchDependent"]) }
  else lib

/-- The constant `META_FORMAT_VERSION` of the source. -/
def META_FORMAT_VERSION : Int := 1

/-- The document base `Versioned`: carries the `format_version` field
(wire name `formatVersion`). -/
structure Versioned where
  format_version : Int
  deriving DecidableEq, Repr

/-- The validator `Versioned.format_version_must_be_supported`:
`assert v <= META_FORMAT_VERSION`; a failed assertion is modelled as
`none`. -/
def format_version_must_be_supported (v : Int) : Option Int :=
  if v ≤ META_FORMAT_VERSION then some v else none

/-- Constructing or parsing a `Versioned` document runs the validator
on the supplied `formatVersion` (defaulting to `META_FORMAT_VERSION`
when absent). -/
def mkVersioned (v : Option Int) : Option Versioned :=
  (format_version_must_be_supported (v.getD META_FORMAT_VERSION)).map Versioned.mk

/-- JSON values, as produced by `MetaBase.json`.  The `null`
constructor stands for a Python `None`; because `MetaBase.json` forces
`exclude_none=True`, the encoders below must never produce it. -/
inductive Json where
  | null : Json
  | jstr : String → Json
  | num : Int → Json
  | arr : List Json → Json
  | obj : List (String × Json) → Json
  deriving Repr

/-- A JSON value contains a null somewhere in its tree. -/
inductive Json.HasNull : Json → Prop
  | nullSelf : Json.HasNull Json.null
  | inArr {xs : List Json} {x : Json} : x ∈ xs → Json.HasNull x → Json.HasNull (Json.arr xs)
  | inObj {kvs : List (String × Json)} {p : String × Json} :
      p ∈ kvs → Json.HasNull p.2 → Json.HasNull (Json.obj kvs)

/-- Key comparison used by `json.dumps(sort_keys=True)`: compare the
keys of two key-value pairs. -/
def keyLe (p q : String × Json) : Prop := p.1 ≤ q.1

/-- Strict version of `keyLe`, used to state uniqueness of the sorted
form. -/
def keyLt (p q : String × Json) : Prop := p.1 < q.1

instance : DecidableRel keyLe := fun p q => inferInstanceAs (Decidable (p.1 ≤ q.1))

instance : IsTotal (String × Json) keyLe := ⟨fun a b => le_total a.1 b.1⟩

instance : IsTrans (String × Json) keyLe := ⟨fun _ _ _ h1 h2 => le_trans h1 h2⟩

instance : IsAntisymm (String × Json) keyLt := ⟨fun _ _ h1 h2 => absurd h2 (lt_asymm h1)⟩

/-- The key sorting performed by `json.dumps(sort_keys=True)` on every
object: sort the key-value pairs lexicographically by key. -/
def sortByKey (l : List (String × Json)) : List (String × Json) :=
  List.insertionSort keyLe l

/-- An object whose keys are emitted in sorted order, as
`json.dumps(sort_keys=True)` renders every dict. -/
def canonicalObj (kvs : List (String × Json)) : Json := Json.obj (sortByKey kvs)

/-- The `exclude_none=True` policy of `MetaBase.json`: an optional
field contributes its key-value pair when present and nothing at all
when absent. -/
def optField (k : String) : Option Json → List (String × Json)
  | none => []
  | some j => [(k, j)]

/-- Encode a list of strings as a JSON array of strings. -/
def encodeStrArr (xs : List Str) : Json := Json.arr (xs.map (fun s => Json.jstr s.asString))

/-- Serialization of `MojangLibraryExtractRules`: its `exclude` list. -/
def encodeExtract (e : List Str) : Json := canonicalObj [("exclude", encodeStrArr e)]

/-- Serialization of `MojangArtifact` under `exclude_none`: optional
sha1, optional size, required url, optional path. -/
def encodeArtifact (a : MojangArtifact) : Json :=
  canonicalObj
    (optField "sha1" (a.sha1.map (fun s => Json.jstr s.asString)) ++
      optField "size" (a.size.map Json.num) ++
      [("url", Json.jstr a.url.asString)] ++
      optField "path" (a.path.map (fun s => Json.jstr s.asString)))

/-- Serialization of `MojangLibraryDownloads` under `exclude_none`. -/
def encodeDownloads (d : MojangLibraryDownloads) : Json :=
  canonicalObj
    (optField "artifact" (d.artifact.map encodeArtifact) ++
      optField "classifiers"
        (d.classifiers.map (fun cs =>
          canonicalObj (cs.map (fun p => (p.1.asString, encodeArtifact p.2))))))

/-- Serialization of `OSRule` under `exclude_none`: required name,
optional version. -/
def encodeOSRule (o : OSRule) : Json :=
  canonicalObj
    ([("name", Json.jstr o.name.asString)] ++
      optField "version" (o.version.map (fun v => Json.jstr v.asString)))

/-- Serialization of `MojangRule` under `exclude_none`: required
action, optional os constraint. -/
def encodeRule (r : MojangRule) : Json :=
  canonicalObj
    ([("action", Json.jstr r.action.asString)] ++
      optField "os" (r.os.map encodeOSRule))

/-- Serialization of the `arch_rules` dict: each action maps to the
array of its architecture names. -/
def encodeArchRules (ar : List (Str × List Str)) : Json :=
  canonicalObj (ar.map (fun p => (p.1.asString, encodeStrArr p.2)))

/-- The key-value pairs a `MojangLibrary` contributes to the emitted
document, before key sorting: one pair per non-`None` field, in field
declaration order, with the `GradleSpecifier` name encoded as its
canonical string (the `json_encoders` entry of `MetaBase.Config`).
Since `arch_rules` carries no pydantic alias, its wire key is the
field name itself. -/
def encodeLibrary (lib : MojangLibrary) : List (String × Json) :=
  optField "extract" (lib.extract.map encodeExtract) ++
    [("name", Json.jstr lib.name.toStr.asString)] ++
    optField "downloads" (lib.downloads.map encodeDownloads) ++
    optField "natives"
      (lib.natives.map (fun ns =>
        canonicalObj (ns.map (fun p => (p.1.asString, Json.jstr p.2.asString))))) ++
    optField "rules" (lib.rules.map (fun rs => Json.arr (rs.map encodeRule))) ++
    optField "arch_rules" (lib.arch_rules.map encodeArchRules) ++
    optField "traits" (lib.traits.map encodeStrArr)

/-- The keys of the emitted (key-sorted) form of a library value. -/
def emittedKeys (lib : MojangLibrary) : List String :=
  (sortByKey (encodeLibrary lib)).map Prod.fst

/-- Full serialization of a library inside a document: the
rule-synthesis override `MojangLibrary.dict` runs first, then the
resolved value is encoded with sorted keys and `exclude_none`. -/
def serializeLibrary (lib : MojangLibrary) : Option Json :=
  lib.dictResolve.map (fun l => canonicalObj (encodeLibrary l))

/-- A coordinate is well formed when none of its fields contains a
separator that the renderer would emit and the parser would split on:
no colon or at-sign inside group, artifact, version or classifier, a
classifier that is either absent or non-empty (a present empty
classifier is falsy and would not be rendered), and no at-sign inside
the extension.  Every such coordinate renders to a string following
the canonical extension-omission rule. -/
def wfSpecifier (s : GradleSpecifier) : Prop :=
  ':' ∉ s.group ∧ '@' ∉ s.group ∧
  ':' ∉ s.artifact ∧ '@' ∉ s.artifact ∧
  ':' ∉ s.version ∧ '@' ∉ s.version ∧
  (s.classifier = none ∨
    (s.classifier.getD [] ≠ [] ∧ ':' ∉ s.classifier.getD [] ∧ '@' ∉ s.classifier.getD [])) ∧
  '@' ∉ s.extension

instance (s : GradleSpecifier) : Decidable (wfSpecifier s) := by
  unfold wfSpecifier; infer_instance

/-- The part of the rendered coordinate before the extension suffix. -/
def bodyOf (s : GradleSpecifier) : Str :=
  if s.classifier.getD [] ≠ [] then
    s.group ++ ':' :: s.artifact ++ ':' :: s.version ++ ':' :: s.classifier.getD []
  else
    s.group ++ ':' :: s.artifact ++ ':' :: s.version

/-- The extension suffix of the rendered coordinate: empty for the
default extension "jar", an at-sign followed by the extension
otherwise. -/
def extOf (s : GradleSpecifier) : Str :=
  if s.extension = str "jar" then [] else '@' :: s.extension

/-! Lemmas about `splitOnChar`. -/

theorem splitOnChar_ne_nil (c : Char) (l : Str) : splitOnChar c l ≠ [] := by
  cases l with
  | nil => simp [splitOnChar]
  | cons x xs =>
    simp only [splitOnChar]
    by_cases h : x = c
    · simp [h]
    · simp only [if_neg h]
      cases hs : splitOnChar c xs <;> simp

theorem splitOnChar_of_not_mem {c : Char} : ∀ {l : Str}, c ∉ l → splitOnChar c l = [l]
  | [], _ => rfl
  | x :: xs, h => by
    have hx : ¬ x = c := fun hh => h (hh ▸ List.mem_cons_self x xs)
    have hxs : c ∉ xs := fun hh => h (List.mem_cons_of_mem x hh)
    simp [splitOnChar, hx, splitOnChar_of_not_mem hxs]

theorem splitOnChar_append {c : Char} :
    ∀ (l₁ l₂ : Str), c ∉ l₁ → splitOnChar c (l₁ ++ c :: l₂) = l₁ :: splitOnChar c l₂
  | [], l₂, _ => by simp [splitOnChar]
  | x :: xs, l₂, h => by
    have hx : ¬ x = c := fun hh => h (hh ▸ List.mem_cons_self x xs)
    have hxs : c ∉ xs := fun hh => h (List.mem_cons_of_mem x hh)
    have ih := splitOnChar_append xs l₂ hxs
    simp only [List.cons_append, splitOnChar, if_neg hx, List.append_eq, ih]

/-! Claim C2: which inputs make coordinate parsing fail. -/

/-- C2 (amended): coordinate parsing fails exactly when the body (the
part before the first at-sign) splits on colons into fewer than three
components; a body with more than four components is accepted, the
components beyond the third being ignored.  The original claim, that
parsing also fails for more than four components, is refuted by
`C2_counterexample`. -/
theorem C2_parse_failure_amended (v : Str) :
    GradleSpecifier.from_string v = none ↔
      (splitOnChar ':' ((splitOnChar '@' v).headD [])).length < 3 := by
  rcases hcs : splitOnChar ':' ((splitOnChar '@' v).headD []) with _ | ⟨g, _ | ⟨a, _ | ⟨w, rest⟩⟩⟩ <;>
    simp only [GradleSpecifier.from_string, hcs] <;> simp

/-- C2 (counterexample to the claim as stated): the body of
"a:b:c:d:e" splits into five colon components, yet parsing does not
fail: it returns a coordinate built from the first three components,
with no classifier and the default extension. -/
theorem C2_counterexample :
    (splitOnChar ':' ((splitOnChar '@' (str "a:b:c:d:e")).headD [])).length = 5 ∧
      GradleSpecifier.from_string (str "a:b:c:d:e") =
        some ⟨str "a", str "b", str "c", none, str "jar"⟩ := by decide

/-! Claim C3: round-trip between rendering and parsing. -/

theorem toStr_body_ext (s : GradleSpecifier) : s.toStr = bodyOf s ++ extOf s := by
  unfold GradleSpecifier.toStr bodyOf extOf
  by_cases h : s.classifier.getD [] ≠ [] <;> simp [h, List.append_assoc]

theorem not_mem_bodyOf (s : GradleSpecifier)
    (hg : '@' ∉ s.group) (ha : '@' ∉ s.artifact) (hv : '@' ∉ s.version)
    (hcl : '@' ∉ s.classifier.getD []) :
    '@' ∉ bodyOf s := by
  unfold bodyOf
  by_cases h : s.classifier.getD [] ≠ [] <;>
    simp [h, List.mem_append, List.mem_cons, hg, ha, hv, hcl,
      (by decide : ('@' : Char) ≠ ':')]

theorem split_bodyOf (s : GradleSpecifier)
    (hg : ':' ∉ s.group) (ha : ':' ∉ s.artifact) (hv : ':' ∉ s.version)
    (hcl : ':' ∉ s.classifier.getD []) :
    splitOnChar ':' (bodyOf s) =
      if s.classifier.getD [] ≠ [] then
        [s.group, s.artifact, s.version, s.classifier.getD []]
      else [s.group, s.artifact, s.version] := by
  unfold bodyOf
  by_cases h : s.classifier.getD [] ≠ []
  · rw [if_pos h, if_pos h,
      show s.group ++ ':' :: s.artifact ++ ':' :: s.version ++ ':' :: s.classifier.getD [] =
        s.group ++ ':' :: (s.artifact ++ ':' :: (s.version ++ ':' :: s.classifier.getD []))
        by simp [List.append_assoc],
      splitOnChar_append _ _ hg, splitOnChar_append _ _ ha, splitOnChar_append _ _ hv,
      splitOnChar_of_not_mem hcl]
  · rw [if_neg h, if_neg h,
      show s.group ++ ':' :: s.artifact ++ ':' :: s.version =
        s.group ++ ':' :: (s.artifact ++ ':' :: s.version) by simp [List.append_assoc],
      splitOnChar_append _ _ hg, splitOnChar_append _ _ ha,
      splitOnChar_of_not_mem hv]

/-- C3 (confirmed): for every well-formed coordinate, rendering and
re-parsing restores the coordinate exactly, and hence re-rendering
returns the rendered string unchanged.  Rendered strings follow the
canonical extension-omission rule by construction of
`GradleSpecifier.toStr`, and parsing splits the string at the first
at-sign into body and optional extension, the extension defaulting to
"jar" when the suffix is absent. -/
theorem C3_round_trip (s : GradleSpecifier) (h : wfSpecifier s) :
    GradleSpecifier.from_string s.toStr = some s ∧
      (GradleSpecifier.from_string s.toStr).map GradleSpecifier.toStr = some s.toStr := by
  have hmain : GradleSpecifier.from_string s.toStr = some s := by
    obtain ⟨hg, hga, ha, haa, hv, hva, hclo, hea⟩ := h
    have hcl : ':' ∉ s.classifier.getD [] := by
      rcases hclo with h0 | h0
      · rw [h0]; simp
      · exact h0.2.1
    have hcla : '@' ∉ s.classifier.getD [] := by
      rcases hclo with h0 | h0
      · rw [h0]; simp
      · exact h0.2.2
    have hbody : '@' ∉ bodyOf s := not_mem_bodyOf s hga haa hva hcla
    have hsplitCol := split_bodyOf s hg ha hv hcl
    by_cases hj : s.extension = str "jar"
    · have hsplitAt : splitOnChar '@' s.toStr = [bodyOf s] := by
        rw [toStr_body_ext s]
        unfold extOf
        rw [if_pos hj, List.append_nil]
        exact splitOnChar_of_not_mem hbody
      by_cases hc : s.classifier.getD [] ≠ []
      · rw [if_pos hc] at hsplitCol
        have hCsome : s.classifier = some (s.classifier.getD []) := by
          cases hC : s.classifier with
          | none => rw [hC] at hc; simp at hc
          | some c => rfl
        simp [GradleSpecifier.from_string, hsplitAt, hsplitCol, GradleSpecifier.make,
          hCsome.symm, hj]
        rw [← hj]
      · rw [if_neg hc] at hsplitCol
        have hCnone : s.classifier = none := by
          rcases hclo with h0 | h0
          · exact h0
          · exact absurd h0.1 hc
        simp [GradleSpecifier.from_string, hsplitAt, hsplitCol, GradleSpecifier.make,
          hCnone, hj]
        rw [← hj, ← hCnone]
    · have hsplitAt : splitOnChar '@' s.toStr = [bodyOf s, s.extension] := by
        rw [toStr_body_ext s]
        unfold extOf
        rw [if_neg hj, splitOnChar_append _ _ hbody, splitOnChar_of_not_mem hea]
      by_cases hc : s.classifier.getD [] ≠ []
      · rw [if_pos hc] at hsplitCol
        have hCsome : s.classifier = some (s.classifier.getD []) := by
          cases hC : s.classifier with
          | none => rw [hC] at hc; simp at hc
          | some c => rfl
        simp [GradleSpecifier.from_string, hsplitAt, hsplitCol, GradleSpecifier.make,
          hCsome.symm]
      · rw [if_neg hc] at hsplitCol
        have hCnone : s.classifier = none := by
          rcases hclo with h0 | h0
          · exact h0
          · exact absurd h0.1 hc
        simp [GradleSpecifier.from_string, hsplitAt, hsplitCol, GradleSpecifier.make,
          hCnone]
        rw [← hCnone]
  exact ⟨hmain, by rw [hmain]; rfl⟩

/-- C3 witness: a concrete well-formed coordinate with classifier and
non-default extension round-trips. -/
theorem C3_round_trip_witness :
    wfSpecifier ⟨str "net.minecraft", str "launchwrapper", str "1.5", some (str "natives"), str "zip"⟩ ∧
      GradleSpecifier.from_string
          (GradleSpecifier.toStr ⟨str "net.minecraft", str "launchwrapper", str "1.5", some (str "natives"), str "zip"⟩) =
        some ⟨str "net.minecraft", str "launchwrapper", str "1.5", some (str "natives"), str "zip"⟩ ∧
      (GradleSpecifier.from_string
          (GradleSpecifier.toStr ⟨str "net.minecraft", str "launchwrapper", str "1.5", some (str "natives"), str "zip"⟩)).map
          GradleSpecifier.toStr =
        some (GradleSpecifier.toStr ⟨str "net.minecraft", str "launchwrapper", str "1.5", some (str "natives"), str "zip"⟩) :=
  ⟨by decide,
    (C3_round_trip ⟨str "net.minecraft", str "launchwrapper", str "1.5", some (str "natives"), str "zip"⟩ (by decide)).1,
    (C3_round_trip ⟨str "net.minecraft", str "launchwrapper", str "1.5", some (str "natives"), str "zip"⟩ (by decide)).2⟩

/-! Claim C5: filename and repository path derivation. -/

/-- C5 (confirmed): the filename is
`artifact-version[-classifier].extension`, the classifier segment
present exactly when the classifier is set (truthy); the repository
path is the group with dots replaced by slashes, a slash, artifact,
slash, version, slash, then the filename; and the concrete coordinate
of the claim derives the expected path. -/
theorem C5_filename_path (s : GradleSpecifier) :
    (s.filename =
      s.artifact ++ str "-" ++ s.version ++
        (if s.classifier.getD [] ≠ [] then str "-" ++ s.classifier.getD [] else []) ++
        str "." ++ s.extension) ∧
    (s.path =
      s.group.map (fun ch => if ch = '.' then '/' else ch) ++ str "/" ++
        s.artifact ++ str "/" ++ s.version ++ str "/" ++ s.filename) ∧
    ((GradleSpecifier.from_string (str "net.minecraft:launchwrapper:1.5")).map
        GradleSpecifier.path =
      some (str "net/minecraft/launchwrapper/1.5/launchwrapper-1.5.jar")) := by
  refine ⟨?_, ?_, by decide⟩
  · unfold GradleSpecifier.filename
    by_cases h : s.classifier.getD [] ≠ [] <;>
      simp [h, (show str "-" = ['-'] from rfl), (show str "." = ['.'] from rfl),
        List.append_assoc]
  · unfold GradleSpecifier.path GradleSpecifier.base
    simp [(show str "/" = ['/'] from rfl), List.append_assoc]

/-! Claim C8: the arch-dependence heuristic. -/

/-- C8 (confirmed): `is_archdependent` is true exactly when the group
contains "lwjgl" or the artifact contains "objc"; it is true for the
group "org.lwjgl", true whenever the artifact contains "objc", and
false for the coordinate with group "net.minecraftforge" and artifact
"forge". -/
theorem C8_is_archdependent (s : GradleSpecifier) :
    (s.is_archdependent =
      (containsSub (str "lwjgl") s.group || containsSub (str "objc") s.artifact)) ∧
    (GradleSpecifier.is_archdependent
      ⟨str "org.lwjgl", str "lwjgl", str "2.9.0", none, str "jar"⟩ = true) ∧
    (containsSub (str "objc") s.artifact = true → s.is_archdependent = true) ∧
    (GradleSpecifier.is_archdependent
      ⟨str "net.minecraftforge", str "forge", str "1.0", none, str "jar"⟩ = false) := by
  have hmain : s.is_archdependent =
      (containsSub (str "lwjgl") s.group || containsSub (str "objc") s.artifact) := by
    unfold GradleSpecifier.is_archdependent
    cases h1 : containsSub (str "lwjgl") s.group <;>
      cases h2 : containsSub (str "objc") s.artifact <;> simp
  refine ⟨hmain, by decide, ?_, by decide⟩
  intro h
  rw [hmain, h, Bool.or_true]

/-- C8 witness: a concrete coordinate whose artifact contains "objc"
(the Java-ObjC bridge) is arch-dependent. -/
theorem C8_is_archdependent_witness :
    containsSub (str "objc")
        (GradleSpecifier.artifact ⟨str "ca.weblite", str "java-objc-bridge", str "1.1", none, str "jar"⟩) = true ∧
      GradleSpecifier.is_archdependent
          ⟨str "ca.weblite", str "java-objc-bridge", str "1.1", none, str "jar"⟩ = true :=
  ⟨by decide,
    (C8_is_archdependent ⟨str "ca.weblite", str "java-objc-bridge", str "1.1", none, str "jar"⟩).2.2.1
      (by decide)⟩

/-! Claim C10: equality, ordering and hashing go through the string form. -/

/-- C10 (confirmed): equality of two specifiers, and of a specifier
with a plain string, holds exactly when the canonical string forms are
equal; the hash is the string hash of the canonical form, so equal
specifiers hash equally for every hash function; ordering compares the
canonical strings; and two structurally different specifiers (present
empty classifier against absent classifier) with the same canonical
string compare equal. -/
theorem C10_string_equality (a b : GradleSpecifier) (other : Str) (hash : Str → Int) :
    (a.eqSpec b = true ↔ a.toStr = b.toStr) ∧
    (a.eqStr other = true ↔ a.toStr = other) ∧
    (a.eqSpec b = true → a.hashWith hash = b.hashWith hash) ∧
    (a.ltSpec b = strLt a.toStr b.toStr ∧ a.gtSpec b = strLt b.toStr a.toStr) ∧
    (GradleSpecifier.eqSpec ⟨str "g", str "a", str "v", some [], str "jar"⟩
      ⟨str "g", str "a", str "v", none, str "jar"⟩ = true) := by
  refine ⟨?_, ?_, ?_, ⟨rfl, rfl⟩, by decide⟩
  · simp [GradleSpecifier.eqSpec]
  · simp [GradleSpecifier.eqStr]
  · intro h
    have := (beq_iff_eq (a := a.toStr) (b := b.toStr)).mp h
    unfold GradleSpecifier.hashWith
    rw [this]

/-- C10 witness: two specifiers differing only in the default-valued
fields are equal, and hash equally under an arbitrary hash. -/
theorem C10_string_equality_witness :
    GradleSpecifier.eqSpec ⟨str "g", str "a", str "v", some [], str "jar"⟩
        ⟨str "g", str "a", str "v", none, str "jar"⟩ = true ∧
      GradleSpecifier.hashWith (fun l => Int.ofNat l.length)
          ⟨str "g", str "a", str "v", some [], str "jar"⟩ =
        GradleSpecifier.hashWith (fun l => Int.ofNat l.length)
          ⟨str "g", str "a", str "v", none, str "jar"⟩ :=
  ⟨by decide,
    (C10_string_equality ⟨str "g", str "a", str "v", some [], str "jar"⟩
        ⟨str "g", str "a", str "v", none, str "jar"⟩ [] (fun l => Int.ofNat l.length)).2.2.1
      (by decide)⟩

/-! Claim C6: the format-version gate. -/

/-- C6 (confirmed): constructing or parsing a versioned document whose
`formatVersion` exceeds `META_FORMAT_VERSION` is rejected; a document
at exactly the maximum is accepted; one greater than the maximum is
rejected. -/
theorem C6_format_version_gate :
    (∀ v : Int, META_FORMAT_VERSION < v → mkVersioned (some v) = none) ∧
    mkVersioned (some META_FORMAT_VERSION) = some ⟨META_FORMAT_VERSION⟩ ∧
    mkVersioned (some (META_FORMAT_VERSION + 1)) = none := by
  refine ⟨?_, by decide, by decide⟩
  intro v hv
  simp [mkVersioned, format_version_must_be_supported, not_le.mpr hv]

/-- C6 witness: the gate rejects format version 2. -/
theorem C6_format_version_gate_witness :
    META_FORMAT_VERSION < 2 ∧ mkVersioned (some 2) = none :=
  ⟨by decide, C6_format_version_gate.1 2 (by decide)⟩

/-! Claim C7: derivation of the ArchDependent trait. -/

/-- C7 (confirmed): on an arch-dependent coordinate,
`add_archdependent_trait` appends the literal "ArchDependent" to the
traits (creating the list when absent), leaves every other field
unchanged, and is not idempotent (a second invocation appends the
trait again); on a non-arch-dependent coordinate the library is
returned unchanged. -/
theorem C7_arch_trait (lib : MojangLibrary) :
    (lib.name.is_archdependent = true →
      lib.add_archdependent_trait =
        { lib with traits := some (lib.traits.getD [] ++ [str "ArchDependent"]) } ∧
      lib.add_archdependent_trait.add_archdependent_trait =
        { lib with traits := some (lib.traits.getD [] ++ [str "ArchDependent", str "ArchDependent"]) }) ∧
    (lib.name.is_archdependent = false → lib.add_archdependent_trait = lib) := by
  constructor
  · intro h
    have h1 : lib.add_archdependent_trait =
        { lib with traits := some (lib.traits.getD [] ++ [str "ArchDependent"]) } := by
      cases htr : lib.traits with
      | none => simp [MojangLibrary.add_archdependent_trait, h, htr]
      | some ts =>
        cases ts with
        | nil => simp [MojangLibrary.add_archdependent_trait, h, htr]
        | cons t0 ts0 => simp [MojangLibrary.add_archdependent_trait, h, htr]
    refine ⟨h1, ?_⟩
    rw [h1]
    simp [MojangLibrary.add_archdependent_trait, h, List.append_assoc]
  · intro h
    simp [MojangLibrary.add_archdependent_trait, h]

/-- C7 witness: a concrete LWJGL library gains the trait once, then a
second invocation duplicates it. -/
theorem C7_arch_trait_witness :
    GradleSpecifier.is_archdependent
        ⟨str "org.lwjgl", str "lwjgl", str "3.3.1", none, str "jar"⟩ = true ∧
      (MojangLibrary.add_archdependent_trait
          ⟨none, ⟨str "org.lwjgl", str "lwjgl", str "3.3.1", none, str "jar"⟩,
            none, none, none, none, none⟩ =
        ⟨none, ⟨str "org.lwjgl", str "lwjgl", str "3.3.1", none, str "jar"⟩,
          none, none, none, none, some [str "ArchDependent"]⟩ ∧
      (MojangLibrary.add_archdependent_trait (MojangLibrary.add_archdependent_trait
          ⟨none, ⟨str "org.lwjgl", str "lwjgl", str "3.3.1", none, str "jar"⟩,
            none, none, none, none, none⟩) =
        ⟨none, ⟨str "org.lwjgl", str "lwjgl", str "3.3.1", none, str "jar"⟩,
          none, none, none, none, some [str "ArchDependent", str "ArchDependent"]⟩)) := by
  refine ⟨by decide, ?_⟩
  have := (C7_arch_trait
    ⟨none, ⟨str "org.lwjgl", str "lwjgl", str "3.3.1", none, str "jar"⟩,
      none, none, none, none, none⟩).1 (by decide)
  exact this

/-! Claim C1: rule synthesis at serialization. -/

/-- C1 (counterexample to the claim as stated): with an explicitly
present empty rules list (`rules = some []`, which is truthy in
Python) and `archRules = disallow: [osx-arm64]`, the code appends only
the disallow rule and never prepends the blanket allow, while the
specified algorithm (which treats the empty explicit list like an
absent one) prepends it. -/
theorem C1_counterexample :
    (MojangLibrary.dictResolve
        ⟨none, ⟨str "g", str "a", str "1", none, str "jar"⟩, none, none, some [],
          some [(str "disallow", [str "osx-arm64"])], none⟩).map MojangLibrary.rules =
      some (some [⟨str "disallow", some ⟨str "osx-arm64", none⟩⟩]) ∧
    specRuleSynthesis (some []) [(str "disallow", [str "osx-arm64"])] =
      some [⟨str "allow", none⟩, ⟨str "disallow", some ⟨str "osx-arm64", none⟩⟩] := by
  decide

/-- C1 (amended): the rule synthesis performed by `MojangLibrary.dict`
agrees with the specified algorithm whenever the `rules` field is not
an explicitly present empty list: the blanket allow is prepended only
when `rules` is absent and a disallow action is present, and every
`(action, archName)` pair is appended in map-then-list order with the
`arch_rules` field cleared.  In particular, for absent explicit rules
and `archRules = disallow: [osx-arm64]`, the synthesized list is
exactly the blanket allow followed by the osx-arm64 disallow. -/
theorem C1_rule_synthesis_amended (lib : MojangLibrary)
    (h1 : lib.arch_rules.getD [] ≠ []) (h2 : lib.rules ≠ some []) :
    (MojangLibrary.dictResolve lib =
      (specRuleSynthesis lib.rules (lib.arch_rules.getD [])).map
        (fun rs => { lib with rules := some rs, arch_rules := none })) ∧
    ((MojangLibrary.dictResolve
        ⟨none, ⟨str "g", str "a", str "1", none, str "jar"⟩, none, none, none,
          some [(str "disallow", [str "osx-arm64"])], none⟩).map MojangLibrary.rules =
      some (some [⟨str "allow", none⟩, ⟨str "disallow", some ⟨str "osx-arm64", none⟩⟩])) := by
  refine ⟨?_, by decide⟩
  unfold MojangLibrary.dictResolve specRuleSynthesis
  rw [if_neg (by simpa using h1)]
  cases hr : lib.rules with
  | none =>
    cases he : expandArchRules (lib.arch_rules.getD []) with
    | none => simp [he]
    | some e =>
      cases hd : hasDisallow (lib.arch_rules.getD []) <;> simp [he, hd]
  | some rs =>
    have hne : rs ≠ [] := by rintro rfl; exact h2 hr
    cases he : expandArchRules (lib.arch_rules.getD []) with
    | none => simp [he]
    | some e => simp [he, hne]

/-- C1 witness: a concrete library with a non-empty explicit rule list
and an allow-action arch rule satisfies the hypotheses, and the code
result equals the specified algorithm result. -/
theorem C1_rule_synthesis_amended_witness :
    (MojangLibrary.arch_rules
        ⟨none, ⟨str "g", str "a", str "1", none, str "jar"⟩, none, none,
          some [⟨str "allow", none⟩], some [(str "allow", [str "linux-arm64"])], none⟩).getD [] ≠ [] ∧
    MojangLibrary.rules
        ⟨none, ⟨str "g", str "a", str "1", none, str "jar"⟩, none, none,
          some [⟨str "allow", none⟩], some [(str "allow", [str "linux-arm64"])], none⟩ ≠ some [] ∧
    ((MojangLibrary.dictResolve
        ⟨none, ⟨str "g", str "a", str "1", none, str "jar"⟩, none, none,
          some [⟨str "allow", none⟩], some [(str "allow", [str "linux-arm64"])], none⟩ =
      (specRuleSynthesis
          (MojangLibrary.rules
            ⟨none, ⟨str "g", str "a", str "1", none, str "jar"⟩, none, none,
              some [⟨str "allow", none⟩], some [(str "allow", [str "linux-arm64"])], none⟩)
          ((MojangLibrary.arch_rules
            ⟨none, ⟨str "g", str "a", str "1", none, str "jar"⟩, none, none,
              some [⟨str "allow", none⟩], some [(str "allow", [str "linux-arm64"])], none⟩).getD [])).map
        (fun rs =>
          { (⟨none, ⟨str "g", str "a", str "1", none, str "jar"⟩, none, none,
              some [⟨str "allow", none⟩], some [(str "allow", [str "linux-arm64"])], none⟩ : MojangLibrary) with
            rules := some rs, arch_rules := none })) ∧
    ((MojangLibrary.dictResolve
        ⟨none, ⟨str "g", str "a", str "1", none, str "jar"⟩, none, none, none,
          some [(str "disallow", [str "osx-arm64"])], none⟩).map MojangLibrary.rules =
      some (some [⟨str "allow", none⟩, ⟨str "disallow", some ⟨str "osx-arm64", none⟩⟩]))) :=
  ⟨by decide, by decide,
    C1_rule_synthesis_amended
      ⟨none, ⟨str "g", str "a", str "1", none, str "jar"⟩, none, none,
        some [⟨str "allow", none⟩], some [(str "allow", [str "linux-arm64"])], none⟩
      (by decide) (by decide)⟩

/-! Claim C4: the emitted form and the arch_rules field. -/

theorem mem_emittedKeys_iff (lib : MojangLibrary) (k : String) :
    k ∈ emittedKeys lib ↔ k ∈ (encodeLibrary lib).map Prod.fst := by
  unfold emittedKeys sortByKey
  exact ((List.perm_insertionSort keyLe _).map Prod.fst).mem_iff

theorem arch_key_not_mem (lib : MojangLibrary) (h : lib.arch_rules = none) :
    "arch_rules" ∉ emittedKeys lib := by
  rw [mem_emittedKeys_iff]
  simp only [encodeLibrary, h]
  cases lib.extract <;> cases lib.downloads <;> cases lib.natives <;>
    cases lib.rules <;> cases lib.traits <;> simp [optField]

/-- C4 (counterexample to the claim as stated): a library whose
`arch_rules` is an explicitly present empty dict is falsy, so
`MojangLibrary.dict` leaves it untouched; it is not cleared to absent,
and since its (non-`None`) value survives `exclude_none`, the
arch-rules key does appear in the emitted document. -/
theorem C4_counterexample :
    MojangLibrary.dictResolve
        ⟨none, ⟨str "g", str "a", str "1", none, str "jar"⟩, none, none, none, some [], none⟩ =
      some ⟨none, ⟨str "g", str "a", str "1", none, str "jar"⟩, none, none, none, some [], none⟩ ∧
    "arch_rules" ∈ emittedKeys
      ⟨none, ⟨str "g", str "a", str "1", none, str "jar"⟩, none, none, none, some [], none⟩ := by
  constructor
  · decide
  · rw [mem_emittedKeys_iff]
    simp [encodeLibrary, optField]

/-- C4 (amended): for every library whose `arch_rules` is not an
explicitly present empty dict, serialization resolves `arch_rules`
fully into `rules`: the value handed to encoding has `arch_rules`
cleared to absent and the arch-rules key does not appear among the
emitted keys. -/
theorem C4_no_arch_rules_amended (lib lib2 : MojangLibrary)
    (h0 : lib.arch_rules ≠ some [])
    (hres : MojangLibrary.dictResolve lib = some lib2) :
    lib2.arch_rules = none ∧ "arch_rules" ∉ emittedKeys lib2 := by
  have harch : lib2.arch_rules = none := by
    unfold MojangLibrary.dictResolve at hres
    by_cases hempty : (lib.arch_rules.getD []).isEmpty = true
    · rw [if_pos hempty] at hres
      obtain rfl := Option.some.inj hres
      cases ha : lib.arch_rules with
      | none => rfl
      | some l =>
        rw [ha] at hempty h0
        simp only [Option.getD_some] at hempty
        rw [List.isEmpty_iff] at hempty
        rw [hempty] at h0
        exact absurd rfl h0
    · rw [if_neg hempty] at hres
      cases he : expandArchRules (lib.arch_rules.getD []) with
      | none => rw [he] at hres; simp at hres
      | some e =>
        rw [he] at hres
        simp only [Option.map_some] at hres
        obtain rfl := Option.some.inj hres
        rfl
  exact ⟨harch, arch_key_not_mem lib2 harch⟩

/-- C4 witness: a library with a non-empty arch-rules dict resolves to
a value with `arch_rules` cleared and no arch-rules key emitted. -/
theorem C4_no_arch_rules_amended_witness :
    MojangLibrary.arch_rules
        ⟨none, ⟨str "g", str "a", str "1", none, str "jar"⟩, none, none, none,
          some [(str "disallow", [str "osx-arm64"])], none⟩ ≠ some [] ∧
    MojangLibrary.dictResolve
        ⟨none, ⟨str "g", str "a", str "1", none, str "jar"⟩, none, none, none,
          some [(str "disallow", [str "osx-arm64"])], none⟩ =
      some ⟨none, ⟨str "g", str "a", str "1", none, str "jar"⟩, none, none,
          some [⟨str "allow", none⟩, ⟨str "disallow", some ⟨str "osx-arm64", none⟩⟩], none, none⟩ ∧
    (MojangLibrary.arch_rules
        ⟨none, ⟨str "g", str "a", str "1", none, str "jar"⟩, none, none,
          some [⟨str "allow", none⟩, ⟨str "disallow", some ⟨str "osx-arm64", none⟩⟩], none, none⟩ = none ∧
      "arch_rules" ∉ emittedKeys
        ⟨none, ⟨str "g", str "a", str "1", none, str "jar"⟩, none, none,
          some [⟨str "allow", none⟩, ⟨str "disallow", some ⟨str "osx-arm64", none⟩⟩], none, none⟩) :=
  ⟨by decide, by decide,
    C4_no_arch_rules_amended
      ⟨none, ⟨str "g", str "a", str "1", none, str "jar"⟩, none, none, none,
        some [(str "disallow", [str "osx-arm64"])], none⟩
      ⟨none, ⟨str "g", str "a", str "1", none, str "jar"⟩, none, none,
        some [⟨str "allow", none⟩, ⟨str "disallow", some ⟨str "osx-arm64", none⟩⟩], none, none⟩
      (by decide) (by decide)⟩

/-! Claim C9: canonical serialization determinism. -/

theorem sorted_keyLt_of_sorted_nodup {l : List (String × Json)}
    (hs : List.Sorted keyLe l) (hnd : (l.map Prod.fst).Nodup) :
    List.Sorted keyLt l := by
  have hne : l.Pairwise (fun p q => p.1 ≠ q.1) := List.pairwise_map.mp hnd
  exact (hs.and hne).imp (fun h => lt_of_le_of_ne h.1 h.2)

theorem sortByKey_eq_of_perm (l l' : List (String × Json)) (hp : l.Perm l')
    (hnd : (l.map Prod.fst).Nodup) : sortByKey l = sortByKey l' := by
  have h1 : List.Sorted keyLe (sortByKey l) := List.sorted_insertionSort keyLe l
  have h2 : List.Sorted keyLe (sortByKey l') := List.sorted_insertionSort keyLe l'
  have hperm : (sortByKey l).Perm (sortByKey l') :=
    (List.perm_insertionSort keyLe l).trans (hp.trans (List.perm_insertionSort keyLe l').symm)
  have hnd1 : ((sortByKey l).map Prod.fst).Nodup :=
    (((List.perm_insertionSort keyLe l).map Prod.fst).nodup_iff).mpr hnd
  have hnd2 : ((sortByKey l').map Prod.fst).Nodup :=
    ((hperm.map Prod.fst).nodup_iff).mp hnd1
  exact List.eq_of_perm_of_sorted hperm
    (sorted_keyLt_of_sorted_nodup h1 hnd1) (sorted_keyLt_of_sorted_nodup h2 hnd2)

theorem hasNull_jstr (s : String) : ¬ Json.HasNull (Json.jstr s) := fun h => nomatch h

theorem hasNull_num (n : Int) : ¬ Json.HasNull (Json.num n) := fun h => nomatch h

theorem hasNull_canonicalObj {kvs : List (String × Json)}
    (h : ∀ p ∈ kvs, ¬ Json.HasNull p.2) : ¬ Json.HasNull (canonicalObj kvs) := by
  intro hn
  cases hn with
  | inObj hmem hv =>
    exact h _ ((List.perm_insertionSort keyLe kvs).mem_iff.mp hmem) hv

theorem not_hasNull_optField_map {α : Type} (k : String) (o : Option α) (f : α → Json)
    (hf : ∀ x, ¬ Json.HasNull (f x)) : ∀ p ∈ optField k (o.map f), ¬ Json.HasNull p.2 := by
  intro p hp
  cases o with
  | none => simp [optField] at hp
  | some x =>
    simp [optField] at hp
    subst hp
    exact hf x

theorem not_hasNull_encodeStrArr (xs : List Str) : ¬ Json.HasNull (encodeStrArr xs) := by
  intro hn
  cases hn with
  | inArr hmem hx =>
    obtain ⟨s, -, rfl⟩ := List.mem_map.mp hmem
    exact hasNull_jstr _ hx

theorem not_hasNull_encodeExtract (e : List Str) : ¬ Json.HasNull (encodeExtract e) := by
  apply hasNull_canonicalObj
  intro p hp
  simp only [List.mem_singleton] at hp
  subst hp
  exact not_hasNull_encodeStrArr e

theorem not_hasNull_encodeArtifact (a : MojangArtifact) : ¬ Json.HasNull (encodeArtifact a) := by
  apply hasNull_canonicalObj
  refine List.forall_mem_append.mpr ⟨List.forall_mem_append.mpr
    ⟨List.forall_mem_append.mpr ⟨?_, ?_⟩, ?_⟩, ?_⟩
  · exact not_hasNull_optField_map _ _ _ (fun s => hasNull_jstr _)
  · exact not_hasNull_optField_map _ _ _ (fun n => hasNull_num _)
  · intro p hp
    simp only [List.mem_singleton] at hp
    subst hp
    exact hasNull_jstr _
  · exact not_hasNull_optField_map _ _ _ (fun s => hasNull_jstr _)

theorem not_hasNull_encodeDownloads (d : MojangLibraryDownloads) :
    ¬ Json.HasNull (encodeDownloads d) := by
  apply hasNull_canonicalObj
  refine List.forall_mem_append.mpr ⟨?_, ?_⟩
  · exact not_hasNull_optField_map _ _ _ not_hasNull_encodeArtifact
  · refine not_hasNull_optField_map _ _ _ (fun cs => ?_)
    apply hasNull_canonicalObj
    intro p hp
    obtain ⟨q, -, rfl⟩ := List.mem_map.mp hp
    exact not_hasNull_encodeArtifact q.2

theorem not_hasNull_encodeOSRule (o : OSRule) : ¬ Json.HasNull (encodeOSRule o) := by
  apply hasNull_canonicalObj
  refine List.forall_mem_append.mpr ⟨?_, ?_⟩
  · intro p hp
    simp only [List.mem_singleton] at hp
    subst hp
    exact hasNull_jstr _
  · exact not_hasNull_optField_map _ _ _ (fun v => hasNull_jstr _)

theorem not_hasNull_encodeRule (r : MojangRule) : ¬ Json.HasNull (encodeRule r) := by
  apply hasNull_canonicalObj
  refine List.forall_mem_append.mpr ⟨?_, ?_⟩
  · intro p hp
    simp only [List.mem_singleton] at hp
    subst hp
    exact hasNull_jstr _
  · exact not_hasNull_optField_map _ _ _ not_hasNull_encodeOSRule

theorem not_hasNull_rulesArr (rs : List MojangRule) :
    ¬ Json.HasNull (Json.arr (rs.map encodeRule)) := by
  intro hn
  cases hn with
  | inArr hmem hx =>
    obtain ⟨r, -, rfl⟩ := List.mem_map.mp hmem
    exact not_hasNull_encodeRule r hx

theorem not_hasNull_encodeArchRules (ar : List (Str × List Str)) :
    ¬ Json.HasNull (encodeArchRules ar) := by
  apply hasNull_canonicalObj
  intro p hp
  obtain ⟨q, -, rfl⟩ := List.mem_map.mp hp
  exact not_hasNull_encodeStrArr q.2

theorem not_hasNull_encodeLibrary_pairs (lib : MojangLibrary) :
    ∀ p ∈ encodeLibrary lib, ¬ Json.HasNull p.2 := by
  unfold encodeLibrary
  refine List.forall_mem_append.mpr ⟨List.forall_mem_append.mpr ⟨List.forall_mem_append.mpr
    ⟨List.forall_mem_append.mpr ⟨List.forall_mem_append.mpr
      ⟨List.forall_mem_append.mpr ⟨?_, ?_⟩, ?_⟩, ?_⟩, ?_⟩, ?_⟩, ?_⟩
  · exact not_hasNull_optField_map _ _ _ not_hasNull_encodeExtract
  · intro p hp
    simp only [List.mem_singleton] at hp
    subst hp
    exact hasNull_jstr _
  · exact not_hasNull_optField_map _ _ _ not_hasNull_encodeDownloads
  · refine not_hasNull_optField_map _ _ _ (fun ns => ?_)
    apply hasNull_canonicalObj
    intro p hp
    obtain ⟨q, -, rfl⟩ := List.mem_map.mp hp
    exact hasNull_jstr _
  · exact not_hasNull_optField_map _ _ _ not_hasNull_rulesArr
  · exact not_hasNull_optField_map _ _ _ not_hasNull_encodeArchRules
  · exact not_hasNull_optField_map _ _ _ not_hasNull_encodeStrArr

/-- C9 (confirmed): the canonical serialization of `MetaBase.json` is
deterministic: sorting by key maps any two permutations of the same
key-value pairs (with distinct keys) to the same list, so the emitted
bytes do not depend on construction order; emitted keys are sorted
lexicographically; and a serialized library never contains a null
value anywhere, since `exclude_none` drops every `None`-valued
optional field at every level. -/
theorem C9_canonical_serialization :
    (∀ l l' : List (String × Json), l.Perm l' → (l.map Prod.fst).Nodup →
      sortByKey l = sortByKey l') ∧
    (∀ l : List (String × Json), ((sortByKey l).map Prod.fst).Sorted (· ≤ ·)) ∧
    (∀ (lib : MojangLibrary) (j : Json), serializeLibrary lib = some j →
      ¬ Json.HasNull j) := by
  refine ⟨sortByKey_eq_of_perm, ?_, ?_⟩
  · intro l
    exact List.Pairwise.map Prod.fst (fun a b h => h) (List.sorted_insertionSort keyLe l)
  · intro lib j hj
    unfold serializeLibrary at hj
    cases hd : lib.dictResolve with
    | none => rw [hd] at hj; simp at hj
    | some l2 =>
      rw [hd] at hj
      simp only [Option.map_some'] at hj
      obtain rfl := Option.some.inj hj
      exact hasNull_canonicalObj (not_hasNull_encodeLibrary_pairs l2)

/-- C9 witness: two orderings of the same two-field object sort to the
same list, and a concrete serialized library contains no null. -/
theorem C9_canonical_serialization_witness :
    ([(("b" : String), Json.num 1), ("a", Json.num 2)]).Perm
        [(("a" : String), Json.num 2), ("b", Json.num 1)] ∧
    (([(("b" : String), Json.num 1), ("a", Json.num 2)]).map Prod.fst).Nodup ∧
    sortByKey [("b", Json.num 1), ("a", Json.num 2)] =
      sortByKey [("a", Json.num 2), ("b", Json.num 1)] ∧
    serializeLibrary
        ⟨none, ⟨str "g", str "a", str "1", none, str "jar"⟩, none, none, none, none, none⟩ =
      some (Json.obj [("name", Json.jstr "g:a:1")]) ∧
    ¬ Json.HasNull (Json.obj [("name", Json.jstr "g:a:1")]) :=
  ⟨List.Perm.swap ("a", Json.num 2) ("b", Json.num 1) [], by decide,
    C9_canonical_serialization.1 _ _ (List.Perm.swap ("a", Json.num 2) ("b", Json.num 1) [])
      (by decide),
    by rfl,
    C9_canonical_serialization.2.2
      ⟨none, ⟨str "g", str "a", str "1", none, str "jar"⟩, none, none, none, none, none⟩
      (Json.obj [("name", Json.jstr "g:a:1")]) (by rfl)⟩

/-- C2 witness: the amended failure characterization applied at the
two-component input "a:b", whose parse fails. -/
theorem C2_parse_failure_amended_witness :
    GradleSpecifier.from_string (str "a:b") = none ↔
      (splitOnChar ':' ((splitOnChar '@' (str "a:b")).headD [])).length < 3 :=
  C2_parse_failure_amended (str "a:b")

/-- C5 witness: the filename and path equations applied at the
concrete coordinate of the claim. -/
theorem C5_filename_path_witness :
    (GradleSpecifier.filename ⟨str "net.minecraft", str "launchwrapper", str "1.5", none, str "jar"⟩ =
      str "launchwrapper" ++ str "-" ++ str "1.5" ++
        (if (Option.getD (GradleSpecifier.classifier
            ⟨str "net.minecraft", str "launchwrapper", str "1.5", none, str "jar"⟩) []) ≠ [] then
          str "-" ++ (Option.getD (GradleSpecifier.classifier
            ⟨str "net.minecraft", str "launchwrapper", str "1.5", none, str "jar"⟩) []) else []) ++
        str "." ++ str "jar") ∧
    ((GradleSpecifier.from_string (str "net.minecraft:launchwrapper:1.5")).map
        GradleSpecifier.path =
      some (str "net/minecraft/launchwrapper/1.5/launchwrapper-1.5.jar")) :=
  ⟨(C5_filename_path ⟨str "net.minecraft", str "launchwrapper", str "1.5", none, str "jar"⟩).1,
    (C5_filename_path ⟨str "net.minecraft", str "launchwrapper", str "1.5", none, str "jar"⟩).2.2⟩
